import Mathlib

/-!
Verification of the snake-game tick logic.

The definitions below are a shallow embedding of the repository's
TypeScript source:

* `src/constants.ts` — grid size, speeds, initial snake and direction;
* `src/types.ts` — `Point`, `Snake`, `Direction`, `GameStatus`, `GameState`;
* the main app file — `getRandomPosition`, `isOppositeDirection`,
  `gameOver`, `moveSnake`, `handleDirection`, `startGame`, the keydown
  handler, the high-score load and sync effects.

JavaScript numbers are modelled as `Int` (all arithmetic here stays far
from 2^53, so no overflow modelling is needed).  `Math.random()` is
modelled by an oracle `r : Nat → Nat` counting the calls made so far;
`Math.floor(Math.random() * GRID_SIZE)` becomes `r k % 20`.  The
potentially non-terminating rejection loop of `getRandomPosition` takes
explicit fuel and returns `Option Point`; `none` models the loop not
having found a free cell within the fuel.  Consequently the functions
that call it (`moveSnake` on a growth tick, `startGame`, the mount-time
load effect) return `Option GameState`.
-/

namespace NeonSnake

/-- Constant `GRID_SIZE = 20` from constants.ts. -/
def GRID_SIZE : Int := 20

/-- Constant `INITIAL_SPEED = 150` (ms per tick) from constants.ts. -/
def INITIAL_SPEED : Int := 150

/-- Constant `MIN_SPEED = 60` (fastest speed) from constants.ts. -/
def MIN_SPEED : Int := 60

/-- Constant `SPEED_DECREMENT = 2` (ms reduction per food eaten) from constants.ts. -/
def SPEED_DECREMENT : Int := 2

/-- Type `Point` from types.ts: a grid cell coordinate. -/
structure Point where
  x : Int
  y : Int
deriving DecidableEq, Repr

instance : Inhabited Point := ⟨⟨0, 0⟩⟩

/-- Type `Snake` from types.ts: ordered list of points, head first. -/
abbrev Snake := List Point

/-- Constant `INITIAL_SNAKE` from constants.ts. -/
def INITIAL_SNAKE : Snake := [⟨10, 10⟩, ⟨10, 11⟩, ⟨10, 12⟩]

/-- Enum `Direction` from types.ts. -/
inductive Direction where
  | up
  | down
  | left
  | right
deriving DecidableEq, Repr

/-- Constant `INITIAL_DIRECTION = Direction.UP` from constants.ts. -/
def INITIAL_DIRECTION : Direction := Direction.up

/-- Enum `GameStatus` from types.ts. -/
inductive GameStatus where
  | idle
  | playing
  | paused
  | gameOver
deriving DecidableEq, Repr

/-- The game state held by the `App` component: the seven `useState`
cells (`snake`, `food`, `direction`, `status`, `score`, `highScore`,
`speed`) plus the mutable ref `lastProcessedDirectionRef` (the direction
applied by the most recent tick, the authority for reversal checks). -/
structure GameState where
  snake : Snake
  food : Point
  direction : Direction
  lastProcessedDirection : Direction
  status : GameStatus
  score : Int
  highScore : Int
  speed : Int
deriving DecidableEq, Repr

/-- The repeated TypeScript comparison `seg.x === p.x && seg.y === p.y`. -/
def pointEq (a b : Point) : Bool :=
  a.x == b.x && a.y == b.y

/-- The occupancy test inside `getRandomPosition`:
`snake.some((seg) => seg.x === newPos.x && seg.y === newPos.y)`. -/
def onSnake (snake : Snake) (p : Point) : Bool :=
  snake.any (fun seg => pointEq seg p)

/-- One candidate cell of `getRandomPosition`: two successive
`Math.floor(Math.random() * GRID_SIZE)` calls, drawn from the oracle `r`
at call indices `2*i` and `2*i+1`. -/
def randomCell (r : Nat → Nat) (i : Nat) : Point :=
  ⟨Int.ofNat (r (2 * i) % 20), Int.ofNat (r (2 * i + 1) % 20)⟩

/-- The `while (true)` rejection loop of `getRandomPosition`, with fuel:
sample a cell; if it is on the snake, retry with the next call indices. -/
def getRandomPositionAux (r : Nat → Nat) (snake : Snake) : Nat → Nat → Option Point
  | 0, _ => none
  | fuel + 1, i =>
    let newPos := randomCell r i
    if onSnake snake newPos then getRandomPositionAux r snake fuel (i + 1)
    else some newPos

/-- Function `getRandomPosition(snake)`: a random cell not occupied by the snake. -/
def getRandomPosition (r : Nat → Nat) (fuel : Nat) (snake : Snake) : Option Point :=
  getRandomPositionAux r snake fuel 0

/-- Function `isOppositeDirection(dir1, dir2)` from the app file: the four
explicit reversal checks. -/
def isOppositeDirection (dir1 dir2 : Direction) : Bool :=
  if dir1 = Direction.up ∧ dir2 = Direction.down then true
  else if dir1 = Direction.down ∧ dir2 = Direction.up then true
  else if dir1 = Direction.left ∧ dir2 = Direction.right then true
  else if dir1 = Direction.right ∧ dir2 = Direction.left then true
  else false

/-- The `switch (currentDir)` block of `moveSnake`: offset the head one
cell along the direction (UP: y-1, DOWN: y+1, LEFT: x-1, RIGHT: x+1). -/
def applyDirection (p : Point) : Direction → Point
  | Direction.up => { p with y := p.y - 1 }
  | Direction.down => { p with y := p.y + 1 }
  | Direction.left => { p with x := p.x - 1 }
  | Direction.right => { p with x := p.x + 1 }

/-- The wall-collision test of `moveSnake`:
`newHead.x < 0 || newHead.x >= GRID_SIZE || newHead.y < 0 || newHead.y >= GRID_SIZE`. -/
def wallCollision (p : Point) : Bool :=
  p.x < 0 || GRID_SIZE ≤ p.x || p.y < 0 || GRID_SIZE ≤ p.y

/-- The callback of `snakeRef.current.some((seg, index) => ...)` in the
self-collision test, recursing with an explicit running index: the
segment at `lastIdx` (the current tail) is exempted, every other segment
is compared with `newHead`. -/
def selfCollisionAux (p : Point) (lastIdx : Nat) : Nat → Snake → Bool
  | _, [] => false
  | i, seg :: rest =>
    (if i = lastIdx then false else pointEq seg p) || selfCollisionAux p lastIdx (i + 1) rest

/-- The self-collision test of `moveSnake`: does `newHead` hit any
segment of the current snake other than the one at index `length - 1`? -/
def selfCollision (snake : Snake) (newHead : Point) : Bool :=
  selfCollisionAux newHead (snake.length - 1) 0 snake

/-- Function `moveSnake` from the app file, as a function of the whole state.
Returns `none` when the source has no defined result state: the head
read `snakeRef.current[0]` on an empty snake, or the food-respawn loop
not terminating within the fuel. `gameOver()` is inlined as the status
write (its `clearTimeout` concerns the scheduler, which is outside the
state). -/
def moveSnake (r : Nat → Nat) (fuel : Nat) (st : GameState) : Option GameState :=
  if st.status ≠ GameStatus.playing then some st
  else
    match st.snake with
    | [] => none
    | currentHead :: _ =>
      let currentDir := st.direction
      let st1 := { st with lastProcessedDirection := currentDir }
      let newHead := applyDirection currentHead currentDir
      if wallCollision newHead then
        some { st1 with status := GameStatus.gameOver }
      else if selfCollision st1.snake newHead then
        some { st1 with status := GameStatus.gameOver }
      else
        let isEating := pointEq newHead st1.food
        let newSnake := newHead :: st1.snake
        if isEating then
          match getRandomPosition r fuel newSnake with
          | none => none
          | some f =>
            some { st1 with
              snake := newSnake
              score := st1.score + 10
              speed := max MIN_SPEED (st1.speed - SPEED_DECREMENT)
              food := f }
        else
          some { st1 with snake := newSnake.dropLast }

/-- Function `handleDirection(newDir)`: accept the request unless it reverses the
last processed direction. -/
def handleDirection (newDir : Direction) (st : GameState) : GameState :=
  if !(isOppositeDirection newDir st.lastProcessedDirection) then
    { st with direction := newDir }
  else st

/-- Function `startGame()`: reset snake, direction, last processed direction,
score, speed, respawn food over the initial snake, status PLAYING.
The high score is not reset. -/
def startGame (r : Nat → Nat) (fuel : Nat) (st : GameState) : Option GameState :=
  match getRandomPosition r fuel INITIAL_SNAKE with
  | none => none
  | some f =>
    some { st with
      snake := INITIAL_SNAKE
      direction := INITIAL_DIRECTION
      lastProcessedDirection := INITIAL_DIRECTION
      score := 0
      speed := INITIAL_SPEED
      food := f
      status := GameStatus.playing }

/-- A mapped direction key in `handleKeyDown`: `handleDirection`
followed by the auto-start from IDLE. -/
def directionKey (d : Direction) (st : GameState) : GameState :=
  let st1 := handleDirection d st
  if st.status = GameStatus.idle then { st1 with status := GameStatus.playing } else st1

/-- The Space key in `handleKeyDown`: pause while playing, resume while
paused, otherwise (GAME_OVER or IDLE) start a new game. -/
def spaceKey (r : Nat → Nat) (fuel : Nat) (st : GameState) : Option GameState :=
  if st.status = GameStatus.playing then some { st with status := GameStatus.paused }
  else if st.status = GameStatus.paused then some { st with status := GameStatus.playing }
  else startGame r fuel st

/-- The high-score sync effect: `if (score > highScore) setHighScore(score)`. -/
def syncHighScore (st : GameState) : GameState :=
  if st.highScore < st.score then { st with highScore := st.score } else st

/-- The `useState` initial values of the `App` component. -/
def initialState : GameState :=
  { snake := INITIAL_SNAKE
    food := ⟨15, 15⟩
    direction := INITIAL_DIRECTION
    lastProcessedDirection := INITIAL_DIRECTION
    status := GameStatus.idle
    score := 0
    highScore := 0
    speed := INITIAL_SPEED }

/-- The mount-time load effect: read the stored high score and respawn
the initial food over `INITIAL_SNAKE`.  The parsed value written into
`highScore` is abstracted to an arbitrary `hs : Int` here (the exact
parse, including its NaN outcome, is modelled separately by
`loadHighScore` below, since NaN has no `Int` representative); no claim
about reachable states depends on the high-score value. -/
def loadEffect (r : Nat → Nat) (fuel : Nat) (hs : Int) (st : GameState) : Option GameState :=
  match getRandomPosition r fuel INITIAL_SNAKE with
  | none => none
  | some f => some { st with highScore := hs, food := f }

/-- One externally triggered transition of the app: a tick firing, a
direction key, the Space key, a start-button click, the high-score sync
effect, or the mount-time load effect. -/
inductive Step : GameState → GameState → Prop
  | tick (r : Nat → Nat) (fuel : Nat) (st st' : GameState) :
      moveSnake r fuel st = some st' → Step st st'
  | keyDir (d : Direction) (st : GameState) : Step st (directionKey d st)
  | keySpace (r : Nat → Nat) (fuel : Nat) (st st' : GameState) :
      spaceKey r fuel st = some st' → Step st st'
  | startClick (r : Nat → Nat) (fuel : Nat) (st st' : GameState) :
      startGame r fuel st = some st' → Step st st'
  | hsSync (st : GameState) : Step st (syncHighScore st)
  | load (r : Nat → Nat) (fuel : Nat) (hs : Int) (st st' : GameState) :
      loadEffect r fuel hs st = some st' → Step st st'

/-- States reachable from the initial mount by any sequence of steps. -/
inductive Reachable : GameState → Prop
  | init : Reachable initialState
  | step (st st' : GameState) : Reachable st → Step st st' → Reachable st'

/-! Basic lemmas about the helpers. -/

lemma pointEq_iff {a b : Point} : pointEq a b = true ↔ a = b := by
  cases a; cases b
  simp [pointEq, Point.mk.injEq]

lemma onSnake_iff {s : Snake} {p : Point} : onSnake s p = true ↔ p ∈ s := by
  simp only [onSnake, List.any_eq_true]
  constructor
  · rintro ⟨seg, hmem, heq⟩
    exact pointEq_iff.mp heq ▸ hmem
  · intro hmem
    exact ⟨p, hmem, pointEq_iff.mpr rfl⟩

lemma onSnake_false_iff {s : Snake} {p : Point} : onSnake s p = false ↔ p ∉ s := by
  rw [← Bool.not_eq_true, not_iff_not]
  exact onSnake_iff

lemma getRandomPositionAux_not_onSnake {r : Nat → Nat} {s : Snake} {p : Point} :
    ∀ {fuel i : Nat}, getRandomPositionAux r s fuel i = some p → onSnake s p = false := by
  intro fuel
  induction fuel with
  | zero => intro i h; simp [getRandomPositionAux] at h
  | succ n ih =>
    intro i h
    rw [getRandomPositionAux] at h
    by_cases hc : onSnake s (randomCell r i) = true
    · rw [if_pos hc] at h
      exact ih h
    · rw [if_neg hc] at h
      cases h
      exact Bool.eq_false_iff.mpr hc

lemma getRandomPosition_not_onSnake {r : Nat → Nat} {fuel : Nat} {s : Snake} {p : Point}
    (h : getRandomPosition r fuel s = some p) : onSnake s p = false :=
  getRandomPositionAux_not_onSnake h

/-- The indexed self-collision scan over `dl ++ [a]`, where `a` sits at
the exempted index, checks exactly the segments of `dl`. -/
lemma selfCollisionAux_append (p a : Point) :
    ∀ (dl : Snake) (i : Nat),
      selfCollisionAux p (i + dl.length) i (dl ++ [a]) = onSnake dl p := by
  intro dl
  induction dl with
  | nil =>
    intro i
    simp [selfCollisionAux, onSnake]
  | cons b rest ih =>
    intro i
    have hlen : (b :: rest).length = rest.length + 1 := rfl
    have hne : ¬ (i = i + (b :: rest).length) := by omega
    simp only [List.cons_append, selfCollisionAux, List.append_eq]
    rw [if_neg hne]
    have harith : i + (b :: rest).length = (i + 1) + rest.length := by omega
    rw [harith, ih (i + 1)]
    simp [onSnake]

/-- The source's self-collision test is membership in the snake minus
its last segment. -/
lemma selfCollision_eq_dropLast (s : Snake) (p : Point) :
    selfCollision s p = onSnake s.dropLast p := by
  rcases s with _ | ⟨h, t⟩
  · simp [selfCollision, selfCollisionAux, onSnake]
  · have hne : (h :: t) ≠ ([] : Snake) := by simp
    have hdecomp := List.dropLast_append_getLast hne
    have hlen : (h :: t).length - 1 = (h :: t).dropLast.length := by
      rw [List.length_dropLast]
    calc selfCollision (h :: t) p
        = selfCollisionAux p ((h :: t).length - 1) 0 (h :: t) := rfl
      _ = selfCollisionAux p (0 + (h :: t).dropLast.length) 0
            ((h :: t).dropLast ++ [(h :: t).getLast hne]) := by
            rw [hlen, Nat.zero_add, hdecomp]
      _ = onSnake (h :: t).dropLast p := selfCollisionAux_append _ _ _ 0

lemma selfCollision_iff_mem {s : Snake} {p : Point} :
    selfCollision s p = true ↔ p ∈ s.dropLast := by
  rw [selfCollision_eq_dropLast]; exact onSnake_iff

lemma moveSnake_not_playing {r : Nat → Nat} {fuel : Nat} {st : GameState}
    (h : st.status ≠ GameStatus.playing) : moveSnake r fuel st = some st := by
  rw [moveSnake, if_pos h]

lemma moveSnake_wall {r : Nat → Nat} {fuel : Nat} {st : GameState} {h : Point} {t : Snake}
    (hsnake : st.snake = h :: t) (hplay : st.status = GameStatus.playing)
    (hw : wallCollision (applyDirection h st.direction) = true) :
    moveSnake r fuel st =
      some { st with lastProcessedDirection := st.direction, status := GameStatus.gameOver } := by
  simp only [moveSnake, hplay, hsnake, hw]
  simp

lemma moveSnake_self {r : Nat → Nat} {fuel : Nat} {st : GameState} {h : Point} {t : Snake}
    (hsnake : st.snake = h :: t) (hplay : st.status = GameStatus.playing)
    (hw : wallCollision (applyDirection h st.direction) = false)
    (hself : selfCollision st.snake (applyDirection h st.direction) = true) :
    moveSnake r fuel st =
      some { st with lastProcessedDirection := st.direction, status := GameStatus.gameOver } := by
  rw [hsnake] at hself
  simp only [moveSnake, hplay, hsnake, hw, hself]
  simp

lemma moveSnake_eat {r : Nat → Nat} {fuel : Nat} {st : GameState} {h : Point} {t : Snake}
    (hsnake : st.snake = h :: t) (hplay : st.status = GameStatus.playing)
    (hw : wallCollision (applyDirection h st.direction) = false)
    (hself : selfCollision st.snake (applyDirection h st.direction) = false)
    (heat : applyDirection h st.direction = st.food) :
    moveSnake r fuel st =
      (getRandomPosition r fuel (applyDirection h st.direction :: st.snake)).map
        (fun f => { st with
          lastProcessedDirection := st.direction
          snake := applyDirection h st.direction :: st.snake
          score := st.score + 10
          speed := max MIN_SPEED (st.speed - SPEED_DECREMENT)
          food := f }) := by
  rw [hsnake] at hself
  have he : pointEq (applyDirection h st.direction) st.food = true := pointEq_iff.mpr heat
  simp only [moveSnake, hplay, hsnake, hw, hself, he]
  rcases hrand : getRandomPosition r fuel (applyDirection h st.direction :: h :: t) with _ | f <;>
    simp [hrand]

lemma moveSnake_noeat {r : Nat → Nat} {fuel : Nat} {st : GameState} {h : Point} {t : Snake}
    (hsnake : st.snake = h :: t) (hplay : st.status = GameStatus.playing)
    (hw : wallCollision (applyDirection h st.direction) = false)
    (hself : selfCollision st.snake (applyDirection h st.direction) = false)
    (heat : applyDirection h st.direction ≠ st.food) :
    moveSnake r fuel st =
      some { st with
        lastProcessedDirection := st.direction
        snake := (applyDirection h st.direction :: st.snake).dropLast } := by
  rw [hsnake] at hself
  have he : pointEq (applyDirection h st.direction) st.food = false := by
    rw [Bool.eq_false_iff]
    intro hc
    exact heat (pointEq_iff.mp hc)
  simp only [moveSnake, hplay, hsnake, hw, hself, he]
  simp

/-! Case analysis of the event handlers. -/

lemma moveSnake_none_empty {r : Nat → Nat} {fuel : Nat} {st : GameState}
    (hplay : st.status = GameStatus.playing) (hsnake : st.snake = []) :
    moveSnake r fuel st = none := by
  simp [moveSnake, hplay, hsnake]

lemma startGame_cases {r : Nat → Nat} {fuel : Nat} {st st' : GameState}
    (hm : startGame r fuel st = some st') :
    ∃ f, getRandomPosition r fuel INITIAL_SNAKE = some f ∧
      st' = { st with
        snake := INITIAL_SNAKE
        direction := INITIAL_DIRECTION
        lastProcessedDirection := INITIAL_DIRECTION
        score := 0
        speed := INITIAL_SPEED
        food := f
        status := GameStatus.playing } := by
  rw [startGame] at hm
  rcases hrand : getRandomPosition r fuel INITIAL_SNAKE with _ | f <;> rw [hrand] at hm
  · cases hm
  · cases hm
    exact ⟨f, rfl, rfl⟩

lemma moveSnake_cases {r : Nat → Nat} {fuel : Nat} {st st' : GameState}
    (hm : moveSnake r fuel st = some st') :
    st' = st
    ∨ ∃ h t, st.snake = h :: t ∧ st.status = GameStatus.playing ∧
      (st' = { st with lastProcessedDirection := st.direction, status := GameStatus.gameOver }
       ∨ (wallCollision (applyDirection h st.direction) = false ∧
          ((∃ f, onSnake (applyDirection h st.direction :: st.snake) f = false ∧
             st' = { st with
               lastProcessedDirection := st.direction
               snake := applyDirection h st.direction :: st.snake
               score := st.score + 10
               speed := max MIN_SPEED (st.speed - SPEED_DECREMENT)
               food := f })
           ∨ st' = { st with
               lastProcessedDirection := st.direction
               snake := (applyDirection h st.direction :: st.snake).dropLast }))) := by
  by_cases hplay : st.status = GameStatus.playing
  · by_cases hnil : st.snake = []
    · rw [moveSnake_none_empty hplay hnil] at hm
      cases hm
    · rcases List.exists_cons_of_ne_nil hnil with ⟨h, t, hsnake⟩
      by_cases hw : wallCollision (applyDirection h st.direction) = true
      · rw [moveSnake_wall hsnake hplay hw] at hm
        cases hm
        exact Or.inr ⟨h, t, hsnake, hplay, Or.inl rfl⟩
      · rw [Bool.not_eq_true] at hw
        by_cases hself : selfCollision st.snake (applyDirection h st.direction) = true
        · rw [moveSnake_self hsnake hplay hw hself] at hm
          cases hm
          exact Or.inr ⟨h, t, hsnake, hplay, Or.inl rfl⟩
        · rw [Bool.not_eq_true] at hself
          by_cases heat : applyDirection h st.direction = st.food
          · rw [moveSnake_eat hsnake hplay hw hself heat] at hm
            rcases hrand : getRandomPosition r fuel (applyDirection h st.direction :: st.snake)
              with _ | f <;> rw [hrand] at hm
            · simp at hm
            · simp only [Option.map_some'] at hm
              cases hm
              exact Or.inr ⟨h, t, hsnake, hplay,
                Or.inr ⟨hw, Or.inl ⟨f, getRandomPosition_not_onSnake hrand, rfl⟩⟩⟩
          · rw [moveSnake_noeat hsnake hplay hw hself heat] at hm
            cases hm
            exact Or.inr ⟨h, t, hsnake, hplay, Or.inr ⟨hw, Or.inr rfl⟩⟩
  · rw [moveSnake_not_playing hplay] at hm
    cases hm
    exact Or.inl rfl

lemma directionKey_frame (d : Direction) (st : GameState) :
    (directionKey d st).snake = st.snake ∧ (directionKey d st).speed = st.speed := by
  simp only [directionKey, handleDirection]
  split <;> split <;> simp

lemma spaceKey_cases {r : Nat → Nat} {fuel : Nat} {st st' : GameState}
    (hm : spaceKey r fuel st = some st') :
    st' = { st with status := GameStatus.paused }
    ∨ st' = { st with status := GameStatus.playing }
    ∨ startGame r fuel st = some st' := by
  rw [spaceKey] at hm
  split at hm
  · cases hm
    exact Or.inl rfl
  · split at hm
    · cases hm
      exact Or.inr (Or.inl rfl)
    · exact Or.inr (Or.inr hm)

lemma syncHighScore_frame (st : GameState) :
    (syncHighScore st).snake = st.snake ∧ (syncHighScore st).speed = st.speed := by
  rw [syncHighScore]
  split <;> simp

lemma loadEffect_cases {r : Nat → Nat} {fuel : Nat} {hs : Int} {st st' : GameState}
    (hm : loadEffect r fuel hs st = some st') :
    ∃ f, st' = { st with highScore := hs, food := f } := by
  rw [loadEffect] at hm
  rcases hrand : getRandomPosition r fuel INITIAL_SNAKE with _ | f <;> rw [hrand] at hm
  · cases hm
  · cases hm
    exact ⟨f, rfl⟩

/-! The inductive invariant for reachable states. -/

/-- The combined inductive invariant: every snake cell passes the wall
test, the snake has at least 3 segments, and the speed lies between
MIN_SPEED and INITIAL_SPEED. -/
def Inv (st : GameState) : Prop :=
  (∀ p ∈ st.snake, wallCollision p = false)
  ∧ 3 ≤ st.snake.length
  ∧ MIN_SPEED ≤ st.speed ∧ st.speed ≤ INITIAL_SPEED

lemma inv_initial : Inv initialState :=
  ⟨by decide, by decide, by decide, by decide⟩

lemma inv_startGame {r : Nat → Nat} {fuel : Nat} {st st' : GameState}
    (hm : startGame r fuel st = some st') : Inv st' := by
  rcases startGame_cases hm with ⟨f, hf, rfl⟩
  refine ⟨?_, ?_, ?_, ?_⟩
  · show ∀ p ∈ INITIAL_SNAKE, wallCollision p = false
    decide
  · show 3 ≤ INITIAL_SNAKE.length
    decide
  · show MIN_SPEED ≤ INITIAL_SPEED
    decide
  · show INITIAL_SPEED ≤ INITIAL_SPEED
    decide

lemma inv_step {st st' : GameState} (hinv : Inv st) (hstep : Step st st') : Inv st' := by
  obtain ⟨hbounds, hlen, hsp1, hsp2⟩ := hinv
  cases hstep with
  | tick r fuel _ _ hm =>
    rcases moveSnake_cases hm with rfl | ⟨h, t, hsnake, hplay, hcase⟩
    · exact ⟨hbounds, hlen, hsp1, hsp2⟩
    rcases hcase with rfl | ⟨hw, hcase⟩
    · exact ⟨hbounds, hlen, hsp1, hsp2⟩
    rcases hcase with ⟨f, hf, rfl⟩ | rfl
    · refine ⟨?_, ?_, ?_, ?_⟩
      · intro p hp
        rcases List.mem_cons.mp hp with rfl | hp2
        · exact hw
        · exact hbounds p hp2
      · show 3 ≤ (applyDirection h st.direction :: st.snake).length
        rw [List.length_cons]
        omega
      · exact le_max_left _ _
      · show max MIN_SPEED (st.speed - SPEED_DECREMENT) ≤ INITIAL_SPEED
        apply max_le
        · decide
        · have h1 : SPEED_DECREMENT = 2 := rfl
          omega
    · refine ⟨?_, ?_, hsp1, hsp2⟩
      · intro p hp
        have hp2 := (List.dropLast_sublist (applyDirection h st.direction :: st.snake)).subset hp
        rcases List.mem_cons.mp hp2 with rfl | hp3
        · exact hw
        · exact hbounds p hp3
      · show 3 ≤ (applyDirection h st.direction :: st.snake).dropLast.length
        rw [List.length_dropLast, List.length_cons]
        omega
  | keyDir d _ =>
    obtain ⟨hs, hsp⟩ := directionKey_frame d st
    exact ⟨by rw [hs]; exact hbounds, by rw [hs]; exact hlen,
      by rw [hsp]; exact hsp1, by rw [hsp]; exact hsp2⟩
  | keySpace r fuel _ _ hm =>
    rcases spaceKey_cases hm with rfl | rfl | hsg
    · exact ⟨hbounds, hlen, hsp1, hsp2⟩
    · exact ⟨hbounds, hlen, hsp1, hsp2⟩
    · exact inv_startGame hsg
  | startClick r fuel _ _ hm =>
    exact inv_startGame hm
  | hsSync _ =>
    obtain ⟨hs, hsp⟩ := syncHighScore_frame st
    exact ⟨by rw [hs]; exact hbounds, by rw [hs]; exact hlen,
      by rw [hsp]; exact hsp1, by rw [hsp]; exact hsp2⟩
  | load r fuel hs _ _ hm =>
    rcases loadEffect_cases hm with ⟨f, rfl⟩
    exact ⟨hbounds, hlen, hsp1, hsp2⟩

lemma reachable_inv {st : GameState} (hr : Reachable st) : Inv st := by
  induction hr with
  | init => exact inv_initial
  | step st1 st2 _ hstep ih => exact inv_step ih hstep

/-! The high-score load (parseInt model). -/

/-- The accumulation JavaScript parseInt performs on the leading run of
decimal digits. -/
def parseIntDigits (ds : List Char) : Int :=
  ds.foldl (fun a c => a * 10 + Int.ofNat (c.toNat - 48)) 0

/-- The optional sign in front of the digits. -/
def parseIntSign (cs : List Char) : Int × List Char :=
  match cs with
  | '-' :: rest => (-1, rest)
  | '+' :: rest => (1, rest)
  | _ => (1, cs)

/-- Model of JavaScript `parseInt(s, 10)`: skip leading whitespace, read
an optional sign, then the longest leading run of decimal digits.
`none` models the NaN result produced when that run is empty. -/
def parseIntBase10 (s : String) : Option Int :=
  let sc := parseIntSign
    (s.toList.dropWhile (fun c => c == ' ' || c == '\t' || c == '\n' || c == '\r'))
  let ds := sc.2.takeWhile (fun c => c.isDigit)
  if ds.isEmpty then none
  else some (sc.1 * parseIntDigits ds)

/-- The high-score load in the mount effect:
`const stored = ...getItem(...); if (stored) setHighScore(parseInt(stored, 10))`.
`stored = none` models an absent key.  The result is the value of the
`highScore` state cell afterwards: the initial `useState(0)` value when
the branch is not taken (absent key, or the empty string, which is falsy
in JavaScript), and the `parseInt` result otherwise — `none` models NaN. -/
def loadHighScore (stored : Option String) : Option Int :=
  match stored with
  | none => some 0
  | some s => if s = "" then some 0 else parseIntBase10 s

/-- Does the stored string start, after whitespace and an optional sign,
with a decimal digit?  Exactly then does parseInt return a number. -/
def startsWithInt (s : String) : Bool :=
  match (parseIntSign
      (s.toList.dropWhile (fun c => c == ' ' || c == '\t' || c == '\n' || c == '\r'))).2 with
  | [] => false
  | c :: _ => c.isDigit

lemma parseIntBase10_none_iff (s : String) :
    parseIntBase10 s = none ↔ startsWithInt s = false := by
  simp only [parseIntBase10, startsWithInt]
  generalize parseIntSign
    (s.toList.dropWhile (fun c => c == ' ' || c == '\t' || c == '\n' || c == '\r')) = sc
  rcases sc with ⟨sign, cs2⟩
  rcases cs2 with _ | ⟨c, rest⟩
  · simp [List.takeWhile]
  · by_cases hc : c.isDigit = true
    · simp [List.takeWhile, hc]
    · rw [Bool.not_eq_true] at hc
      simp [List.takeWhile, hc]

/-! Concrete states used by the witnesses. -/

/-- A constant random oracle: every call returns 0, so every sampled
cell is (0, 0). -/
def rZero : Nat → Nat := fun _ => 0

/-- A playing state matching the straight-movement scenario of the spec. -/
def stStraight : GameState :=
  { snake := [⟨10, 10⟩, ⟨10, 11⟩, ⟨10, 12⟩]
    food := ⟨15, 15⟩
    direction := Direction.up
    lastProcessedDirection := Direction.up
    status := GameStatus.playing
    score := 0
    highScore := 0
    speed := 150 }

/-- The state after one non-growth tick from `stStraight`. -/
def stStraightNext : GameState :=
  { stStraight with snake := [⟨10, 9⟩, ⟨10, 10⟩, ⟨10, 11⟩] }

/-- State `stStraight` with the food directly above the head. -/
def stFood : GameState := { stStraight with food := ⟨10, 9⟩ }

/-- The state after the growth tick from `stFood` under `rZero`. -/
def stFoodNext : GameState :=
  { snake := [⟨10, 9⟩, ⟨10, 10⟩, ⟨10, 11⟩, ⟨10, 12⟩]
    food := ⟨0, 0⟩
    direction := Direction.up
    lastProcessedDirection := Direction.up
    status := GameStatus.playing
    score := 10
    highScore := 0
    speed := 148 }

/-- A playing state with the head on the left wall, moving left. -/
def stWall : GameState :=
  { stStraight with
    snake := [⟨0, 5⟩, ⟨0, 6⟩, ⟨0, 7⟩]
    direction := Direction.left
    lastProcessedDirection := Direction.left }

/-- A playing state about to run into its own body. -/
def stBody : GameState :=
  { stStraight with snake := [⟨5, 5⟩, ⟨5, 4⟩, ⟨6, 4⟩, ⟨6, 5⟩, ⟨6, 6⟩] }

/-! The claims. -/

/-- Claim C1: for every Playing state in which the head offset one cell
along the applied direction lands exactly on the food cell, in bounds
and not on a non-tail body segment, the tick produces a state whose
snake is the new head prepended to the old snake with no tail removed
(length + 1), whose score is the old score plus 10, whose speed is
max(MIN_SPEED, old speed - SPEED_DECREMENT), and whose food is a cell
not occupied by any segment of the new, grown snake. -/
theorem c1_growth_tick (r : Nat → Nat) (fuel : Nat) (st st' : GameState)
    (h : Point) (t : Snake)
    (hsnake : st.snake = h :: t) (hplay : st.status = GameStatus.playing)
    (hw : wallCollision (applyDirection h st.direction) = false)
    (hself : selfCollision st.snake (applyDirection h st.direction) = false)
    (heat : applyDirection h st.direction = st.food)
    (hm : moveSnake r fuel st = some st') :
    st'.snake = applyDirection h st.direction :: st.snake
    ∧ st'.snake.length = st.snake.length + 1
    ∧ st'.score = st.score + 10
    ∧ st'.speed = max MIN_SPEED (st.speed - SPEED_DECREMENT)
    ∧ st'.food ∉ st'.snake
    ∧ st'.status = GameStatus.playing := by
  rw [moveSnake_eat hsnake hplay hw hself heat] at hm
  rcases hrand : getRandomPosition r fuel (applyDirection h st.direction :: st.snake)
    with _ | f <;> rw [hrand] at hm
  · simp at hm
  · simp only [Option.map_some'] at hm
    cases hm
    refine ⟨rfl, List.length_cons _ _, rfl, rfl, ?_, hplay⟩
    exact onSnake_false_iff.mp (getRandomPosition_not_onSnake hrand)

/-- Witness for C1: the concrete growth tick from `stFood`. -/
theorem c1_growth_tick_witness :
    moveSnake rZero 1 stFood = some stFoodNext
    ∧ stFoodNext.snake = applyDirection ⟨10, 10⟩ stFood.direction :: stFood.snake
    ∧ stFoodNext.snake.length = stFood.snake.length + 1
    ∧ stFoodNext.score = stFood.score + 10
    ∧ stFoodNext.speed = max MIN_SPEED (stFood.speed - SPEED_DECREMENT)
    ∧ stFoodNext.food ∉ stFoodNext.snake
    ∧ stFoodNext.status = GameStatus.playing :=
  ⟨by decide,
   c1_growth_tick rZero 1 stFood stFoodNext ⟨10, 10⟩ [⟨10, 11⟩, ⟨10, 12⟩]
     (by decide) (by decide) (by decide) (by decide) (by decide) (by decide)⟩

/-- Claim C2: for every Playing state whose new head is in bounds, off
the food, and not on a non-tail body segment, the tick produces a snake
equal to the new head prepended to the old snake with the last segment
dropped, so the length is unchanged. -/
theorem c2_nongrowth_tick (r : Nat → Nat) (fuel : Nat) (st st' : GameState)
    (h : Point) (t : Snake)
    (hsnake : st.snake = h :: t) (hplay : st.status = GameStatus.playing)
    (hw : wallCollision (applyDirection h st.direction) = false)
    (hself : selfCollision st.snake (applyDirection h st.direction) = false)
    (hne : applyDirection h st.direction ≠ st.food)
    (hm : moveSnake r fuel st = some st') :
    st'.snake = (applyDirection h st.direction :: st.snake).dropLast
    ∧ st'.snake.length = st.snake.length
    ∧ st'.status = GameStatus.playing := by
  rw [moveSnake_noeat hsnake hplay hw hself hne] at hm
  cases hm
  refine ⟨rfl, ?_, hplay⟩
  show (applyDirection h st.direction :: st.snake).dropLast.length = st.snake.length
  rw [List.length_dropLast, List.length_cons]
  omega

/-- Witness for C2: the spec scenario — snake [(10,10),(10,11),(10,12)],
direction Up, food elsewhere; one tick yields [(10,9),(10,10),(10,11)]. -/
theorem c2_nongrowth_tick_witness :
    moveSnake rZero 1 stStraight = some stStraightNext
    ∧ stStraightNext.snake = [⟨10, 9⟩, ⟨10, 10⟩, ⟨10, 11⟩]
    ∧ stStraightNext.snake = (applyDirection ⟨10, 10⟩ stStraight.direction :: stStraight.snake).dropLast
    ∧ stStraightNext.snake.length = stStraight.snake.length
    ∧ stStraightNext.status = GameStatus.playing :=
  ⟨by decide, by decide,
   c2_nongrowth_tick rZero 1 stStraight stStraightNext ⟨10, 10⟩ [⟨10, 11⟩, ⟨10, 12⟩]
     (by decide) (by decide) (by decide) (by decide) (by decide) (by decide)⟩

/-- Claim C3: for every Playing state whose new head lies outside the
grid, the tick sets the status to GameOver and leaves snake, food,
direction, score, speed and highScore unchanged. -/
theorem c3_wall_tick (r : Nat → Nat) (fuel : Nat) (st st' : GameState)
    (h : Point) (t : Snake)
    (hsnake : st.snake = h :: t) (hplay : st.status = GameStatus.playing)
    (hw : wallCollision (applyDirection h st.direction) = true)
    (hm : moveSnake r fuel st = some st') :
    st'.status = GameStatus.gameOver
    ∧ st'.snake = st.snake
    ∧ st'.food = st.food
    ∧ st'.direction = st.direction
    ∧ st'.score = st.score
    ∧ st'.speed = st.speed
    ∧ st'.highScore = st.highScore := by
  rw [moveSnake_wall hsnake hplay hw] at hm
  cases hm
  exact ⟨rfl, rfl, rfl, rfl, rfl, rfl, rfl⟩

/-- Witness for C3: the spec scenario — head (0,5), direction Left,
newHead (-1,5), GameOver with every listed field unchanged. -/
theorem c3_wall_tick_witness :
    applyDirection ⟨0, 5⟩ stWall.direction = ⟨-1, 5⟩
    ∧ moveSnake rZero 1 stWall = some { stWall with status := GameStatus.gameOver }
    ∧ ({ stWall with status := GameStatus.gameOver } : GameState).status = GameStatus.gameOver
    ∧ ({ stWall with status := GameStatus.gameOver } : GameState).snake = stWall.snake
    ∧ ({ stWall with status := GameStatus.gameOver } : GameState).speed = stWall.speed :=
  ⟨by decide, by decide,
   (c3_wall_tick rZero 1 stWall { stWall with status := GameStatus.gameOver } ⟨0, 5⟩
     [⟨0, 6⟩, ⟨0, 7⟩] (by decide) (by decide) (by decide) (by decide)).1,
   (c3_wall_tick rZero 1 stWall { stWall with status := GameStatus.gameOver } ⟨0, 5⟩
     [⟨0, 6⟩, ⟨0, 7⟩] (by decide) (by decide) (by decide) (by decide)).2.1,
   (c3_wall_tick rZero 1 stWall { stWall with status := GameStatus.gameOver } ⟨0, 5⟩
     [⟨0, 6⟩, ⟨0, 7⟩] (by decide) (by decide) (by decide) (by decide)).2.2.2.2.2.1⟩

/-- Claim C4: for every Playing state with an in-bounds new head, the
tick transitions to GameOver exactly when the new head equals a segment
of the current snake other than the last one (membership in
snake.dropLast); hitting only the current tail cell — also on a growth
move — is never a collision. -/
theorem c4_self_collision_iff (r : Nat → Nat) (fuel : Nat) (st : GameState)
    (h : Point) (t : Snake)
    (hsnake : st.snake = h :: t) (hplay : st.status = GameStatus.playing)
    (hw : wallCollision (applyDirection h st.direction) = false) :
    (∀ st', moveSnake r fuel st = some st' →
      (st'.status = GameStatus.gameOver ↔ applyDirection h st.direction ∈ st.snake.dropLast))
    ∧ (applyDirection h st.direction ∈ st.snake.dropLast →
      moveSnake r fuel st =
        some { st with lastProcessedDirection := st.direction, status := GameStatus.gameOver }) := by
  have hchar : selfCollision st.snake (applyDirection h st.direction) = true
      ↔ applyDirection h st.direction ∈ st.snake.dropLast := selfCollision_iff_mem
  constructor
  · intro st' hm
    by_cases hmem : applyDirection h st.direction ∈ st.snake.dropLast
    · rw [moveSnake_self hsnake hplay hw (hchar.mpr hmem)] at hm
      cases hm
      exact ⟨fun _ => hmem, fun _ => rfl⟩
    · have hself : selfCollision st.snake (applyDirection h st.direction) = false := by
        rw [Bool.eq_false_iff]
        intro hc
        exact hmem (hchar.mp hc)
      constructor
      · intro hgo
        exfalso
        by_cases heat : applyDirection h st.direction = st.food
        · rw [moveSnake_eat hsnake hplay hw hself heat] at hm
          rcases hrand : getRandomPosition r fuel (applyDirection h st.direction :: st.snake)
            with _ | f <;> rw [hrand] at hm
          · simp at hm
          · simp only [Option.map_some'] at hm
            cases hm
            have hst : st.status = GameStatus.gameOver := hgo
            rw [hplay] at hst
            cases hst
        · rw [moveSnake_noeat hsnake hplay hw hself heat] at hm
          cases hm
          have hst : st.status = GameStatus.gameOver := hgo
          rw [hplay] at hst
          cases hst
      · intro hmem2
        exact absurd hmem2 hmem
  · intro hmem
    exact moveSnake_self hsnake hplay hw (hchar.mpr hmem)

/-- Witness for C4: from `stBody` the head moves onto the second body
segment, a non-tail segment, and the tick ends the game. -/
theorem c4_self_collision_iff_witness :
    applyDirection ⟨5, 5⟩ stBody.direction ∈ stBody.snake.dropLast
    ∧ moveSnake rZero 1 stBody =
        some { stBody with
          lastProcessedDirection := stBody.direction
          status := GameStatus.gameOver } :=
  ⟨by decide,
   (c4_self_collision_iff rZero 1 stBody ⟨5, 5⟩ [⟨5, 4⟩, ⟨6, 4⟩, ⟨6, 5⟩, ⟨6, 6⟩]
     (by decide) (by decide) (by decide)).2 (by decide)⟩

/-- The reversal partner of each direction (Up↔Down, Left↔Right). -/
def oppositeOf : Direction → Direction
  | Direction.up => Direction.down
  | Direction.down => Direction.up
  | Direction.left => Direction.right
  | Direction.right => Direction.left

/-- Claim C5: a direction request sets the buffered direction to the
requested direction when the request is not the reversal of the
last-applied direction, and leaves the buffered direction unchanged
otherwise; with lastApplied = Up, requesting Down never changes it. -/
theorem c5_request_turn (newDir : Direction) (st : GameState) :
    (newDir ≠ oppositeOf st.lastProcessedDirection →
      (handleDirection newDir st).direction = newDir)
    ∧ (newDir = oppositeOf st.lastProcessedDirection →
      (handleDirection newDir st).direction = st.direction)
    ∧ (st.lastProcessedDirection = Direction.up →
      (handleDirection Direction.down st).direction = st.direction) := by
  rcases st with ⟨sn, fo, di, lp, sa, sc, hi, sp⟩
  cases newDir <;> cases lp <;>
    simp [handleDirection, isOppositeDirection, oppositeOf]

/-- Witness for C5: from `stStraight` (lastProcessed = Up), Left is
accepted and Down is silently dropped. -/
theorem c5_request_turn_witness :
    (Direction.left ≠ oppositeOf stStraight.lastProcessedDirection
      ∧ (handleDirection Direction.left stStraight).direction = Direction.left)
    ∧ (stStraight.lastProcessedDirection = Direction.up
      ∧ (handleDirection Direction.down stStraight).direction = stStraight.direction) :=
  ⟨⟨by decide, (c5_request_turn Direction.left stStraight).1 (by decide)⟩,
   ⟨rfl, (c5_request_turn Direction.down stStraight).2.2 rfl⟩⟩

/-- Claim C6: `startGame` sets the speed to INITIAL_SPEED; a tick never
increases the speed and never takes it below MIN_SPEED once it is at or
above MIN_SPEED; and in every reachable state the speed lies between
MIN_SPEED and INITIAL_SPEED, so arbitrarily many growth ticks never
drive it below the floor. -/
theorem c6_speed_floor :
    (∀ (r : Nat → Nat) (fuel : Nat) (st st' : GameState),
      startGame r fuel st = some st' → st'.speed = INITIAL_SPEED)
    ∧ (∀ (r : Nat → Nat) (fuel : Nat) (st st' : GameState),
      moveSnake r fuel st = some st' → MIN_SPEED ≤ st.speed →
        st'.speed ≤ st.speed ∧ MIN_SPEED ≤ st'.speed)
    ∧ (∀ st : GameState, Reachable st → MIN_SPEED ≤ st.speed ∧ st.speed ≤ INITIAL_SPEED) := by
  refine ⟨?_, ?_, ?_⟩
  · intro r fuel st st' hm
    rcases startGame_cases hm with ⟨f, hf, rfl⟩
    rfl
  · intro r fuel st st' hm hsp
    rcases moveSnake_cases hm with rfl | ⟨h, t, hsnake, hplay, hcase⟩
    · exact ⟨le_refl _, hsp⟩
    rcases hcase with rfl | ⟨hw, hcase⟩
    · exact ⟨le_refl _, hsp⟩
    rcases hcase with ⟨f, hf, rfl⟩ | rfl
    · constructor
      · show max MIN_SPEED (st.speed - SPEED_DECREMENT) ≤ st.speed
        apply max_le hsp
        have hd : SPEED_DECREMENT = 2 := rfl
        omega
      · exact le_max_left _ _
    · exact ⟨le_refl _, hsp⟩
  · intro st hr
    obtain ⟨_, _, h1, h2⟩ := reachable_inv hr
    exact ⟨h1, h2⟩

/-- Witness for C6: the reachable-state bound at the initial state, and
the tick monotonicity at the concrete growth tick from `stFood`. -/
theorem c6_speed_floor_witness :
    (MIN_SPEED ≤ initialState.speed ∧ initialState.speed ≤ INITIAL_SPEED)
    ∧ (stFoodNext.speed ≤ stFood.speed ∧ MIN_SPEED ≤ stFoodNext.speed) :=
  ⟨c6_speed_floor.2.2 initialState Reachable.init,
   c6_speed_floor.2.1 rZero 1 stFood stFoodNext (by decide) (by decide)⟩

/-- Claim C7: in every state reachable from the initial state by any
sequence of start clicks, key events, high-score sync, load and ticks,
every point of the snake lies inside the grid. -/
theorem c7_snake_in_bounds (st : GameState) (hr : Reachable st) :
    ∀ p ∈ st.snake, 0 ≤ p.x ∧ p.x < GRID_SIZE ∧ 0 ≤ p.y ∧ p.y < GRID_SIZE := by
  intro p hp
  have hwall := (reachable_inv hr).1 p hp
  simp only [wallCollision, GRID_SIZE, Bool.or_eq_false_iff, decide_eq_false_iff_not,
    not_lt, not_le] at hwall
  simp only [GRID_SIZE]
  omega

/-- Witness for C7: the initial state is reachable and its head cell is
in bounds. -/
theorem c7_snake_in_bounds_witness :
    0 ≤ (⟨10, 10⟩ : Point).x ∧ (⟨10, 10⟩ : Point).x < GRID_SIZE
    ∧ 0 ≤ (⟨10, 10⟩ : Point).y ∧ (⟨10, 10⟩ : Point).y < GRID_SIZE :=
  c7_snake_in_bounds initialState Reachable.init ⟨10, 10⟩ (by decide)

/-- Claim C8 counterexample: the stored string "abc" is non-empty and
truthy, so the load calls parseInt on it, which yields NaN — the high
score does not fall back to 0 as the claim states. -/
theorem c8_load_counterexample :
    loadHighScore (some "abc") = none ∧ loadHighScore (some "abc") ≠ some 0 := by
  constructor
  · rfl
  · decide

/-- Claim C8 as amended: an absent or empty stored value yields high
score 0; a non-empty stored value yields parseInt of it — a number
exactly when the value starts with a decimal digit after optional
whitespace and sign, and NaN (modelled `none`, not 0) otherwise; there
is no error path. -/
theorem c8_load_amended :
    loadHighScore none = some 0
    ∧ loadHighScore (some "") = some 0
    ∧ (∀ s : String, s ≠ "" → loadHighScore (some s) = parseIntBase10 s)
    ∧ (∀ s : String, loadHighScore (some s) = none ↔ (s ≠ "" ∧ startsWithInt s = false)) := by
  refine ⟨rfl, rfl, ?_, ?_⟩
  · intro s hs
    simp only [loadHighScore, if_neg hs]
  · intro s
    by_cases hs : s = ""
    · subst hs
      simp [loadHighScore]
    · simp only [loadHighScore, if_neg hs]
      rw [parseIntBase10_none_iff]
      simp [hs]

/-- Witness for C8 (amended): "abc" is handed to parseInt, and its NaN
outcome is characterized by the missing leading digit; "7" parses. -/
theorem c8_load_amended_witness :
    ("abc" ≠ "" ∧ loadHighScore (some "abc") = parseIntBase10 "abc")
    ∧ (loadHighScore (some "abc") = none ↔ ("abc" ≠ "" ∧ startsWithInt "abc" = false))
    ∧ (loadHighScore (some "7") = none ↔ ("7" ≠ "" ∧ startsWithInt "7" = false)) :=
  ⟨⟨by decide, c8_load_amended.2.2.1 "abc" (by decide)⟩,
   c8_load_amended.2.2.2 "abc", c8_load_amended.2.2.2 "7"⟩

/-- Claim C10: every reachable state has a snake of at least 3 segments
(the fixed seed length): ticks never remove more than the tail and the
resets restore the seed. -/
theorem c10_snake_length (st : GameState) (hr : Reachable st) :
    3 ≤ st.snake.length :=
  (reachable_inv hr).2.1

/-- Witness for C10: the initial state. -/
theorem c10_snake_length_witness : 3 ≤ initialState.snake.length :=
  c10_snake_length initialState Reachable.init

end NeonSnake
